import Mathlib

/-!
Shallow embedding of the LiveUpdate reconciler
(`internal/controllers/core/liveupdate/reconciler.go`) of tilt.

Times (`metav1.MicroTime`) are modelled as natural numbers; `Time.Before`
is strict `<`.  Go maps are modelled as association lists with
`lookupAssoc` / `insertAssoc`.  Kubernetes-style structural comparison
(`apicmp.DeepEqual`) is structural equality of the modelled values.
-/

set_option autoImplicit false

namespace LiveUpdateModel

/-- Modelled from the spec: a file-watch event record (pkg/apis is outside
the provided sources); it carries a modification time and the list of files
seen.  Only structural equality and these two fields are used by the
reconciler. -/
structure FileEvent where
  time : Nat
  seenFiles : List String
deriving DecidableEq

/-- Modelled from the spec: status of a FileWatch object, a list of file
events in arrival order (the last entry is the most recent event). -/
structure FileWatchStatus where
  fileEvents : List FileEvent
deriving DecidableEq

/-- Modelled from the spec: a FileWatch object as fetched from the store. -/
structure FileWatch where
  status : FileWatchStatus
deriving DecidableEq

/-- Modelled from the spec: status snapshot of a KubernetesApply
dependency.  The reconciler only compares it structurally. -/
structure KubernetesApplyStatus where
  resultYAML : String
  applyError : String
deriving DecidableEq

/-- Modelled from the spec: status snapshot of a KubernetesDiscovery
dependency.  The reconciler only compares it structurally. -/
structure KubernetesDiscoveryStatus where
  pods : List String
deriving DecidableEq

/-- Modelled from the spec: a KubernetesDiscovery object; the monitor
stores the whole object but compares only its status. -/
structure KubernetesDiscovery where
  name : String
  status : KubernetesDiscoveryStatus
deriving DecidableEq

/-- Modelled from the spec: status snapshot of an ImageMap dependency.
The reconciler only compares it structurally. -/
structure ImageMapStatus where
  image : String
deriving DecidableEq

/-- Modelled from the spec: the kubernetes selector of a LiveUpdateSpec;
an empty string means that dependency kind is not configured. -/
structure KubernetesSelector where
  applyName : String
  discoveryName : String
  imageMapName : String
deriving DecidableEq

/-- Modelled from the spec: the selector of a LiveUpdateSpec
(`Selector.Kubernetes` is a nullable pointer in the source). -/
structure LiveUpdateSelector where
  kubernetes : Option KubernetesSelector
deriving DecidableEq

/-- Modelled from the spec: a LiveUpdateSpec.  Run steps (`Execs`) are kept
opaque as a list of strings; boiling them is an external capability.
`restart` models the restart-vs-patch policy flag. -/
structure LiveUpdateSpec where
  fileWatchNames : List String
  selector : LiveUpdateSelector
  execs : List String
  restart : Bool
deriving DecidableEq

/-- Association-list lookup, modelling Go map indexing (`m[k]`, with the
zero value reported as `none`). -/
def lookupAssoc {κ α : Type} [DecidableEq κ] : List (κ × α) → κ → Option α
  | [], _ => none
  | (k', v) :: rest, k => if k' = k then some v else lookupAssoc rest k

/-- Association-list insertion, modelling Go map assignment (`m[k] = v`). -/
def insertAssoc {κ α : Type} [DecidableEq κ] : List (κ × α) → κ → α → List (κ × α)
  | [], k, v => [(k, v)]
  | (k', v') :: rest, k, v =>
    if k' = k then (k, v) :: rest else (k', v') :: insertAssoc rest k v

/-- Key of the per-container bookkeeping map (`monitorContainerKey`). -/
structure MonitorContainerKey where
  containerID : String
  podName : String
  ns : String
deriving DecidableEq

/-- Value of the per-container bookkeeping map (`monitorContainerStatus`). -/
structure MonitorContainerStatus where
  lastFileTimeSynced : Nat
  unrecoverable : Bool
deriving DecidableEq

/-- The per-live-update accumulated state (`monitor` in the source). -/
structure Monitor where
  spec : LiveUpdateSpec
  lastFileEvents : List (String × FileEvent)
  modTimeByPath : List (String × Nat)
  lastKubernetesApplyStatus : Option KubernetesApplyStatus
  lastKubernetesDiscovery : Option KubernetesDiscovery
  lastImageMapStatus : Option ImageMapStatus
  hasChangesToSync : Bool
  containers : List (MonitorContainerKey × MonitorContainerStatus)
deriving DecidableEq

/-- The fresh, empty monitor allocated by `ensureMonitorExists` (only
`spec` and the three maps are initialized in the source; the remaining
fields take their Go zero values). -/
def freshMonitor (spec : LiveUpdateSpec) : Monitor :=
  { spec := spec
    lastFileEvents := []
    modTimeByPath := []
    lastKubernetesApplyStatus := none
    lastKubernetesDiscovery := none
    lastImageMapStatus := none
    hasChangesToSync := false
    containers := [] }

/-- `Reconciler.ensureMonitorExists`: return the stored monitor when its
spec compares structurally equal to the given one; otherwise allocate a
fresh monitor and store it keyed by name. -/
def ensureMonitorExists (monitors : List (String × Monitor)) (name : String)
    (spec : LiveUpdateSpec) : Monitor × List (String × Monitor) :=
  match lookupAssoc monitors name with
  | some m =>
    if m.spec = spec then (m, monitors)
    else
      let m' := freshMonitor spec
      (m', insertAssoc monitors name m')
  | none =>
    let m' := freshMonitor spec
    (m', insertAssoc monitors name m')

/-- Result of a `client.Get` against the object store. -/
inductive FetchResult (α : Type) where
  | found (obj : α)
  | notFound
  | transportError

/-- The object store as seen by the reconciler: one fetch function per
dependency kind (each is `get(kind, name)` from the spec's interface
list). -/
structure Cluster where
  fileWatches : String → FetchResult FileWatch
  kubernetesApplies : String → FetchResult KubernetesApplyStatus
  kubernetesDiscoveries : String → FetchResult KubernetesDiscovery
  imageMaps : String → FetchResult ImageMapStatus

/-- The inner body of the event-consumption loop of
`reconcileOneFileWatch`: fold one event's seen files into
`modTimeByPath`, overwriting only when the existing time is strictly
earlier (`existing.Time.Before(event.Time.Time)`). -/
def foldEventIntoPaths (modTimes : List (String × Nat)) (e : FileEvent) :
    List (String × Nat) :=
  e.seenFiles.foldl
    (fun acc f =>
      match lookupAssoc acc f with
      | none => insertAssoc acc f e.time
      | some existing =>
        if existing < e.time then insertAssoc acc f e.time else acc)
    modTimes

/-- The outer event-consumption loop of `reconcileOneFileWatch`: fold
every event of the fetched list into `modTimeByPath`. -/
def consumeFileEvents (modTimes : List (String × Nat))
    (events : List FileEvent) : List (String × Nat) :=
  events.foldl foldEventIntoPaths modTimes

/-- `Reconciler.reconcileOneFileWatch`.  `Except.error m` models
returning a non-nil error (the monitor, mutated in place in Go, is
carried so state retention across an abort can be stated); not-found is
swallowed by `client.IgnoreNotFound`. -/
def reconcileOneFileWatch (c : Cluster) (m : Monitor) (fwn : String) :
    Except Monitor (Bool × Monitor) :=
  match c.fileWatches fwn with
  | .transportError => .error m
  | .notFound => .ok (false, m)
  | .found fw =>
    match fw.status.fileEvents.getLast? with
    | none => .ok (false, m)
    | some newLastFileEvent =>
      if lookupAssoc m.lastFileEvents fwn = some newLastFileEvent then
        .ok (false, m)
      else
        let m1 := { m with
          lastFileEvents := insertAssoc m.lastFileEvents fwn newLastFileEvent }
        let m2 := { m1 with
          modTimeByPath :=
            consumeFileEvents m1.modTimeByPath fw.status.fileEvents }
        .ok (true, m2)

/-- The loop of `Reconciler.reconcileFileWatches` over the spec's
file-watch names, accumulating `hasChange` and aborting on the first
fetch error. -/
def reconcileFileWatchList (c : Cluster) :
    Monitor → Bool → List String → Except Monitor (Bool × Monitor)
  | m, hasChange, [] => .ok (hasChange, m)
  | m, hasChange, fwn :: rest =>
    match reconcileOneFileWatch c m fwn with
    | .error m' => .error m'
    | .ok (oneChange, m') =>
      reconcileFileWatchList c m' (hasChange || oneChange) rest

/-- `Reconciler.reconcileFileWatches`. -/
def reconcileFileWatches (c : Cluster) (m : Monitor) :
    Except Monitor (Bool × Monitor) :=
  if m.spec.fileWatchNames.isEmpty then .ok (false, m)
  else reconcileFileWatchList c m false m.spec.fileWatchNames

/-- Outcome of one configured-dependency block of
`reconcileKubernetesResource`: proceed with the fetched object (or `none`
when the kind is not configured) and this kind's change flag, exit the
whole function early with `(false, nil)` on not-found, or fail on a
transport error. -/
inductive KubeStep (α : Type) where
  | proceed (obj : Option α) (changed : Bool)
  | earlyExit
  | fail

/-- The `selector.ApplyName` block of `reconcileKubernetesResource`:
fetch the KubernetesApply and compare its status against the monitor's
last-seen snapshot (`nil` baseline counts as changed). -/
def kubeApplyStep (c : Cluster) (m : Monitor) (sel : KubernetesSelector) :
    KubeStep KubernetesApplyStatus :=
  if sel.applyName = "" then .proceed none false
  else
    match c.kubernetesApplies sel.applyName with
    | .transportError => .fail
    | .notFound => .earlyExit
    | .found st =>
      .proceed (some st)
        (match m.lastKubernetesApplyStatus with
         | none => true
         | some prev => if prev = st then false else true)

/-- The `selector.DiscoveryName` block of `reconcileKubernetesResource`:
fetch the KubernetesDiscovery and compare statuses (the monitor stores
the whole object but only its status is compared). -/
def kubeDiscoveryStep (c : Cluster) (m : Monitor) (sel : KubernetesSelector) :
    KubeStep KubernetesDiscovery :=
  if sel.discoveryName = "" then .proceed none false
  else
    match c.kubernetesDiscoveries sel.discoveryName with
    | .transportError => .fail
    | .notFound => .earlyExit
    | .found kd =>
      .proceed (some kd)
        (match m.lastKubernetesDiscovery with
         | none => true
         | some prev => if prev.status = kd.status then false else true)

/-- The `selector.ImageMapName` block of `reconcileKubernetesResource`:
fetch the ImageMap and compare its status against the monitor's last-seen
snapshot. -/
def kubeImageStep (c : Cluster) (m : Monitor) (sel : KubernetesSelector) :
    KubeStep ImageMapStatus :=
  if sel.imageMapName = "" then .proceed none false
  else
    match c.imageMaps sel.imageMapName with
    | .transportError => .fail
    | .notFound => .earlyExit
    | .found st =>
      .proceed (some st)
        (match m.lastImageMapStatus with
         | none => true
         | some prev => if prev = st then false else true)

/-- `Reconciler.reconcileKubernetesResource`: run the three dependency
blocks in source order (apply, discovery, image); a not-found on any
configured one returns `(false, nil)` immediately; only when all blocks
proceed are the three snapshots overwritten (with `none` for
unconfigured kinds) and the OR of the change flags returned. -/
def reconcileKubernetesResource (c : Cluster) (m : Monitor) :
    Except Monitor (Bool × Monitor) :=
  match m.spec.selector.kubernetes with
  | none => .ok (false, m)
  | some sel =>
    match kubeApplyStep c m sel with
    | .fail => .error m
    | .earlyExit => .ok (false, m)
    | .proceed ka applyChanged =>
      match kubeDiscoveryStep c m sel with
      | .fail => .error m
      | .earlyExit => .ok (false, m)
      | .proceed kd discoveryChanged =>
        match kubeImageStep c m sel with
        | .fail => .error m
        | .earlyExit => .ok (false, m)
        | .proceed im imageChanged =>
          .ok (applyChanged || discoveryChanged || imageChanged,
            { m with
              lastImageMapStatus := im
              lastKubernetesApplyStatus := ka
              lastKubernetesDiscovery := kd })

/-- `Reconciler.maybeSync` is a stated placeholder in the source
(`TODO(nick): Fill this in.` with `return nil`): it mutates nothing and
never fails. -/
def maybeSync (m : Monitor) : Monitor := m

/-- The active-state portion of `Reconciler.Reconcile` (after the monitor
exists): run both delta detectors, OR the results into
`hasChangesToSync`, run `maybeSync` when set, then clear the flag
unconditionally.  A detector error aborts the pass, carrying the
already-mutated monitor. -/
def reconcileActive (c : Cluster) (m : Monitor) : Except Monitor Monitor :=
  match reconcileFileWatches c m with
  | .error m' => .error m'
  | .ok (hasFileChanges, m1) =>
    match reconcileKubernetesResource c m1 with
    | .error m1' => .error m1'
    | .ok (hasKubernetesChanges, m2) =>
      let m3 :=
        if hasFileChanges || hasKubernetesChanges then
          { m2 with hasChangesToSync := true }
        else m2
      let m4 := if m3.hasChangesToSync then maybeSync m3 else m3
      .ok { m4 with hasChangesToSync := false }

/-- A target container of a sync attempt (`liveupdates.Container`). -/
structure Container where
  containerName : String
  containerID : String
  podID : String
  ns : String
deriving DecidableEq

/-- The input bundle of a sync attempt (`Input` in the source package):
target containers, changed files, an optional last-sync time (0 models
the zero `metav1.MicroTime`), and the compose-vs-cluster flag. -/
structure Input where
  containers : List Container
  changedFiles : List String
  lastFileTimeSynced : Nat
  isDC : Bool
deriving DecidableEq

/-- Outcome of one `ContainerUpdater.UpdateContainer` call:
success, a run-step failure (`build.MaybeRunStepFailure` matches), or any
other error. -/
inductive UpdateOutcome where
  | success
  | runStepFailure (message : String)
  | otherError (message : String)
deriving DecidableEq

/-- The external capabilities a sync attempt consumes, fixed for one
`applyInternal` call: the outcome of `build.BoilRuns` on this spec's run
steps and changed files, the outcome of `build.MissingLocalPaths`
(toRemove, toArchive), the per-container outcome of the selected
updater's `UpdateContainer`, and the current wall-clock micro-time
(`apis.NowMicro`). -/
structure SyncEnv where
  boilRuns : Except String (List String)
  missingLocalPaths : Except String (List String × List String)
  updateContainer : Container → UpdateOutcome
  now : Nat

/-- `v1alpha1.LiveUpdateStateFailed` (pkg/apis, outside the provided
sources): reason, message, and the transition time stamped by `apply`. -/
structure LiveUpdateStateFailed where
  reason : String
  message : String
  lastTransitionTime : Nat
deriving DecidableEq

/-- `v1alpha1.LiveUpdateContainerStatus` (pkg/apis, outside the provided
sources); `lastExecError` is the Go string zero value `""` when no run
step failed. -/
structure LiveUpdateContainerStatus where
  containerName : String
  containerID : String
  podName : String
  ns : String
  lastFileTimeSynced : Nat
  lastExecError : String
deriving DecidableEq

/-- `v1alpha1.LiveUpdateStatus` (pkg/apis, outside the provided
sources). -/
structure LiveUpdateStatus where
  failed : Option LiveUpdateStateFailed := none
  containers : List LiveUpdateContainerStatus := []
deriving DecidableEq

/-- The per-container status record built by the loop body of
`applyInternal` before the updater outcome is inspected. -/
def containerStatusFor (env : SyncEnv) (input : Input) (cInfo : Container) :
    LiveUpdateContainerStatus :=
  let lastFileTimeSynced :=
    if input.lastFileTimeSynced = 0 then env.now else input.lastFileTimeSynced
  { containerName := cInfo.containerName
    containerID := cInfo.containerID
    podName := cInfo.podID
    ns := cInfo.ns
    lastFileTimeSynced := lastFileTimeSynced
    lastExecError := "" }

/-- The container loop of `applyInternal`.  Arguments mirror the Go
locals: the last run-step-failure status (`lastExecErrorStatus`), the
accumulated `result.Containers`, and additionally the trace of containers
for which `UpdateContainer` has been invoked (the single call site at the
top of the loop body).  Returns the final status and the invocation
trace. -/
def applyLoop (env : SyncEnv) (input : Input) :
    Option LiveUpdateContainerStatus → List LiveUpdateContainerStatus →
    List Container → List Container → LiveUpdateStatus × List Container
  | _, acc, trace, [] => ({ failed := none, containers := acc }, trace)
  | lastExecErrorStatus, acc, trace, cInfo :: rest =>
    let cStatus := containerStatusFor env input cInfo
    match env.updateContainer cInfo with
    | .runStepFailure msg =>
      let cStatus := { cStatus with lastExecError := msg }
      applyLoop env input (some cStatus) (acc ++ [cStatus])
        (trace ++ [cInfo]) rest
    | .otherError msg =>
      ({ failed := some
           { reason := "UpdateFailed"
             message := "Updating pod " ++ cStatus.podName ++ ": " ++ msg
             lastTransitionTime := 0 }
         containers := acc }, trace ++ [cInfo])
    | .success =>
      match lastExecErrorStatus with
      | some lastErr =>
        ({ failed := some
             { reason := "PodsInconsistent"
               message := "Pods in inconsistent state. Success: pod "
                 ++ cStatus.podName ++ ". Failure: pod " ++ lastErr.podName
                 ++ ". Error: " ++ lastErr.lastExecError
               lastTransitionTime := 0 }
           containers := acc }, trace ++ [cInfo])
      | none =>
        applyLoop env input none (acc ++ [cStatus]) (trace ++ [cInfo]) rest

/-- `Reconciler.applyInternal`: boil the run steps, map the changed local
paths (each failure classified `Invalid` and returned before any
container is contacted), then run the container loop.  The second
component is the trace of `UpdateContainer` invocations. -/
def applyInternal (env : SyncEnv) (input : Input) :
    LiveUpdateStatus × List Container :=
  match env.boilRuns with
  | .error e =>
    ({ failed := some
         { reason := "Invalid"
           message := "Building exec: " ++ e
           lastTransitionTime := 0 }
       containers := [] }, [])
  | .ok _ =>
    match env.missingLocalPaths with
    | .error e =>
      ({ failed := some
           { reason := "Invalid"
             message := "Mapping paths: " ++ e
             lastTransitionTime := 0 }
         containers := [] }, [])
    | .ok _ =>
      applyLoop env input none [] [] input.containers

/-- A LiveUpdate object as stored (only its status is consulted by
`apply`). -/
structure LiveUpdateObj where
  status : LiveUpdateStatus
deriving DecidableEq

/-- The monitor bookkeeping block of `Reconciler.apply`: record every
container of the computed status, marking it unrecoverable when the
attempt carries a failure descriptor. -/
def updateMonitorContainers (m : Monitor) (status : LiveUpdateStatus) :
    Monitor :=
  { m with
    containers :=
      status.containers.foldl
        (fun acc c =>
          insertAssoc acc
            { containerID := c.containerID
              podName := c.podName
              ns := c.ns }
            { lastFileTimeSynced := c.lastFileTimeSynced
              unrecoverable := status.failed.isSome })
        m.containers }

/-- The state-transition block of `Reconciler.apply`: when the computed
status carries a failure, keep the previously stored transition time if
the stored status failed with the same reason, else stamp the current
time. -/
def applyTransition (objStatus : LiveUpdateStatus)
    (status : LiveUpdateStatus) (now : Nat) : LiveUpdateStatus :=
  match status.failed with
  | none => status
  | some f =>
    let transitionTime :=
      match objStatus.failed with
      | some prev =>
        if prev.reason = f.reason then prev.lastTransitionTime else now
      | none => now
    { status with failed := some { f with lastTransitionTime := transitionTime } }

/-- `Reconciler.apply` (shared by the reconcile and ForceApply paths):
run `applyInternal`, update the optional monitor's container bookkeeping,
apply the failure-transition rule, and issue a status write only when the
result differs structurally from the stored status.  Returns the final
status, the updated monitor, and whether a store write was issued. -/
def applyUpdate (env : SyncEnv) (obj : LiveUpdateObj) (input : Input)
    (monitorOpt : Option Monitor) :
    LiveUpdateStatus × Option Monitor × Bool :=
  let status0 := (applyInternal env input).1
  let monitorOpt' := monitorOpt.map (fun m => updateMonitorContainers m status0)
  let status := applyTransition obj.status status0 env.now
  (status, monitorOpt', if status = obj.status then false else true)

/-- Merge semantics of one observed time into an optional stored time:
keep the later one, the stored one on ties (`existing.Time.Before` is
strict).  Used to state the per-path characterization of the event
consumption loop. -/
def mergeTime : Option Nat → Nat → Option Nat
  | none, t => some t
  | some existing, t => if existing < t then some t else some existing

/-- A configured file-watch offers no new information to the monitor:
it exists and either reports no events or its most recent event is the
one already recorded in `lastFileEvents`. -/
def noNewData (c : Cluster) (m : Monitor) (w : String) : Prop :=
  ∃ fw, c.fileWatches w = .found fw ∧
    (fw.status.fileEvents = [] ∨
     ∃ e, fw.status.fileEvents.getLast? = some e ∧
       lookupAssoc m.lastFileEvents w = some e)

/-- The run-step failure message of an updater outcome, if any
(`build.MaybeRunStepFailure` succeeding). -/
def updateErrorMessage : UpdateOutcome → Option String
  | .runStepFailure msg => some msg
  | _ => none

/-- The per-container status entry recorded by `applyInternal` for a
container whose update reported a run-step failure. -/
def failedEntry (env : SyncEnv) (input : Input) (c : Container) :
    LiveUpdateContainerStatus :=
  { containerStatusFor env input c with
    lastExecError := (updateErrorMessage (env.updateContainer c)).getD "" }

/-! Concrete instances used by counterexamples and witnesses. -/

/-- A first target container. -/
def containerA : Container :=
  { containerName := "main", containerID := "cidA", podID := "pod-a", ns := "default" }

/-- A second target container. -/
def containerB : Container :=
  { containerName := "main", containerID := "cidB", podID := "pod-b", ns := "default" }

/-- A two-container input bundle. -/
def inputTwoContainers : Input :=
  { containers := [containerA, containerB]
    changedFiles := ["/src/app.py"]
    lastFileTimeSynced := 0
    isDC := false }

/-- A one-container input bundle. -/
def inputOneContainer : Input :=
  { containers := [containerB]
    changedFiles := ["/src/app.py"]
    lastFileTimeSynced := 4
    isDC := false }

/-- Sync environment where `containerA` succeeds and `containerB` then
reports a run-step failure. -/
def envSuccessThenRunFail : SyncEnv :=
  { boilRuns := .ok []
    missingLocalPaths := .ok ([], [])
    updateContainer := fun c =>
      if c = containerB then .runStepFailure "run step exited with code 1"
      else .success
    now := 10 }

/-- Sync environment where `containerA` reports a run-step failure and
`containerB` then succeeds. -/
def envRunFailThenSuccess : SyncEnv :=
  { boilRuns := .ok []
    missingLocalPaths := .ok ([], [])
    updateContainer := fun c =>
      if c = containerA then .runStepFailure "run step exited with code 1"
      else .success
    now := 10 }

/-- Sync environment where `containerA` succeeds and `containerB` hits an
infrastructure error. -/
def envInfraFail : SyncEnv :=
  { boilRuns := .ok []
    missingLocalPaths := .ok ([], [])
    updateContainer := fun c =>
      if c = containerB then .otherError "tar copy failed" else .success
    now := 10 }

/-- Sync environment where every container reports a run-step failure. -/
def envAllRunFail : SyncEnv :=
  { boilRuns := .ok []
    missingLocalPaths := .ok ([], [])
    updateContainer := fun _ => .runStepFailure "run step exited with code 2"
    now := 10 }

/-- Sync environment where boiling the run steps fails. -/
def envBoilFail : SyncEnv :=
  { boilRuns := .error "bad run step"
    missingLocalPaths := .ok ([], [])
    updateContainer := fun _ => .success
    now := 9 }

/-- A stored LiveUpdate whose status already records an `Invalid` failure
with transition time 7. -/
def objStoredInvalid : LiveUpdateObj :=
  { status :=
      { failed := some
          { reason := "Invalid"
            message := "Building exec: old failure"
            lastTransitionTime := 7 }
        containers := [] } }

/-- The failure descriptor computed for `envBoilFail` with the stored
transition time 7 preserved. -/
def invalidFreshFailure : LiveUpdateStateFailed :=
  { reason := "Invalid", message := "Building exec: bad run step",
    lastTransitionTime := 7 }

/-- A file event at time 3 touching one path. -/
def eventA1 : FileEvent := { time := 3, seenFiles := ["/src/app.py"] }

/-- A file watch reporting exactly `eventA1`. -/
def fwOneEvent : FileWatch := { status := { fileEvents := [eventA1] } }

/-- A spec with two file-watch dependencies and no kubernetes selector. -/
def specTwoWatches : LiveUpdateSpec :=
  { fileWatchNames := ["fw-1", "fw-2"]
    selector := { kubernetes := none }
    execs := []
    restart := false }

/-- A spec with one file-watch dependency and no kubernetes selector. -/
def specOneWatch : LiveUpdateSpec :=
  { fileWatchNames := ["fw-1"]
    selector := { kubernetes := none }
    execs := []
    restart := false }

/-- Cluster where `fw-1` is a healthy watch with one event and every
other file-watch fetch hits a transport error. -/
def clusterOneGoodWatch : Cluster :=
  { fileWatches := fun n =>
      if n = "fw-1" then .found fwOneEvent else .transportError
    kubernetesApplies := fun _ => .notFound
    kubernetesDiscoveries := fun _ => .notFound
    imageMaps := fun _ => .notFound }

/-- The monitor obtained after `fw-1`'s event is consumed into a fresh
monitor for `specTwoWatches`. -/
def monitorTwoWatchesAfter : Monitor :=
  { freshMonitor specTwoWatches with
    lastFileEvents := [("fw-1", eventA1)]
    modTimeByPath := [("/src/app.py", 3)] }

/-- Cluster where every file-watch exists but reports no events. -/
def clusterEmptyEvents : Cluster :=
  { fileWatches := fun _ => .found { status := { fileEvents := [] } }
    kubernetesApplies := fun _ => .notFound
    kubernetesDiscoveries := fun _ => .notFound
    imageMaps := fun _ => .notFound }

/-- A monitor table holding one monitor under the name `lu`. -/
def monitorsOne : List (String × Monitor) :=
  [("lu", freshMonitor specOneWatch)]

/-- A concrete KubernetesApply status. -/
def applyStatusX : KubernetesApplyStatus :=
  { resultYAML := "yaml: 1", applyError := "" }

/-- A concrete KubernetesDiscovery object. -/
def discoveryX : KubernetesDiscovery :=
  { name := "kd", status := { pods := ["pod-a"] } }

/-- A concrete ImageMap status. -/
def imageStatusX : ImageMapStatus := { image := "img:1" }

/-- Selector configuring apply and discovery dependencies only. -/
def selApplyDiscovery : KubernetesSelector :=
  { applyName := "ka", discoveryName := "kd", imageMapName := "" }

/-- Spec whose kubernetes selector is `selApplyDiscovery`. -/
def specSelApplyDiscovery : LiveUpdateSpec :=
  { fileWatchNames := []
    selector := { kubernetes := some selApplyDiscovery }
    execs := []
    restart := false }

/-- Selector configuring all three kubernetes-shaped dependencies. -/
def selAllThree : KubernetesSelector :=
  { applyName := "ka", discoveryName := "kd", imageMapName := "im" }

/-- Spec whose kubernetes selector is `selAllThree`. -/
def specSelAllThree : LiveUpdateSpec :=
  { fileWatchNames := []
    selector := { kubernetes := some selAllThree }
    execs := []
    restart := false }

/-- Cluster where the KubernetesApply exists (with `applyStatusX`) but
the KubernetesDiscovery has not appeared yet. -/
def clusterApplyFoundDiscoveryMissing : Cluster :=
  { fileWatches := fun _ => .notFound
    kubernetesApplies := fun _ => .found applyStatusX
    kubernetesDiscoveries := fun _ => .notFound
    imageMaps := fun _ => .notFound }

/-- Cluster where all three kubernetes-shaped dependencies exist. -/
def clusterAllFound : Cluster :=
  { fileWatches := fun _ => .notFound
    kubernetesApplies := fun _ => .found applyStatusX
    kubernetesDiscoveries := fun _ => .found discoveryX
    imageMaps := fun _ => .found imageStatusX }

/-- A file event at time 1 touching `/a`. -/
def eventT1 : FileEvent := { time := 1, seenFiles := ["/a"] }

/-- A file event at time 2 touching `/a`. -/
def eventT2 : FileEvent := { time := 2, seenFiles := ["/a"] }

/-- A file event at time 2 touching only `/b`. -/
def eventOtherPath : FileEvent := { time := 2, seenFiles := ["/b"] }

/-! Helper lemmas. -/

theorem lookupAssoc_insertAssoc_self {κ α : Type} [DecidableEq κ]
    (m : List (κ × α)) (k : κ) (v : α) :
    lookupAssoc (insertAssoc m k v) k = some v := by
  induction m with
  | nil => simp [insertAssoc, lookupAssoc]
  | cons p rest ih =>
    obtain ⟨k', v'⟩ := p
    by_cases h : k' = k
    · simp [insertAssoc, h, lookupAssoc]
    · simp [insertAssoc, h, lookupAssoc, ih]

theorem lookupAssoc_insertAssoc_ne {κ α : Type} [DecidableEq κ]
    (m : List (κ × α)) (k j : κ) (v : α) (hne : k ≠ j) :
    lookupAssoc (insertAssoc m k v) j = lookupAssoc m j := by
  induction m with
  | nil => simp [insertAssoc, lookupAssoc, hne]
  | cons p rest ih =>
    obtain ⟨k', v'⟩ := p
    by_cases h : k' = k
    · subst h
      simp [insertAssoc, lookupAssoc, hne]
    · simp [insertAssoc, h, lookupAssoc, ih]

theorem mergeTime_idem (o : Option Nat) (t : Nat) :
    mergeTime (mergeTime o t) t = mergeTime o t := by
  cases o with
  | none => simp [mergeTime]
  | some e =>
    by_cases h : e < t
    · simp [mergeTime, h]
    · simp [mergeTime, h]

theorem lookupAssoc_foldl_files (t : Nat) (l : List String)
    (m : List (String × Nat)) (p : String) :
    lookupAssoc
      (l.foldl (fun acc f =>
        match lookupAssoc acc f with
        | none => insertAssoc acc f t
        | some existing =>
          if existing < t then insertAssoc acc f t else acc) m) p
    = if p ∈ l then mergeTime (lookupAssoc m p) t else lookupAssoc m p := by
  induction l generalizing m with
  | nil => simp
  | cons f rest ih =>
    rw [List.foldl_cons, ih]
    have hstep : lookupAssoc (match lookupAssoc m f with
        | none => insertAssoc m f t
        | some existing =>
          if existing < t then insertAssoc m f t else m) p
      = if f = p then mergeTime (lookupAssoc m p) t else lookupAssoc m p := by
      by_cases hfp : f = p
      · subst hfp
        cases hm : lookupAssoc m f with
        | none => simp [hm, lookupAssoc_insertAssoc_self, mergeTime]
        | some e =>
          by_cases he : e < t <;>
            simp [hm, he, lookupAssoc_insertAssoc_self, mergeTime]
      · cases hm : lookupAssoc m f with
        | none => simp [hm, lookupAssoc_insertAssoc_ne _ _ _ _ hfp, hfp]
        | some e =>
          by_cases he : e < t <;>
            simp [hm, he, lookupAssoc_insertAssoc_ne _ _ _ _ hfp, hfp]
    rw [hstep]
    rcases Decidable.em (f = p) with hfp | hfp
    · subst hfp
      by_cases hpr : f ∈ rest <;> simp [hpr, mergeTime_idem]
    · by_cases hpr : p ∈ rest <;> simp [hpr, hfp, Ne.symm hfp]

theorem lookupAssoc_foldEventIntoPaths (m : List (String × Nat))
    (e : FileEvent) (p : String) :
    lookupAssoc (foldEventIntoPaths m e) p =
      if p ∈ e.seenFiles then mergeTime (lookupAssoc m p) e.time
      else lookupAssoc m p := by
  unfold foldEventIntoPaths
  exact lookupAssoc_foldl_files e.time e.seenFiles m p

theorem reconcileOneFileWatch_of_noNewData (c : Cluster) (m : Monitor)
    (w : String) (h : noNewData c m w) :
    reconcileOneFileWatch c m w = .ok (false, m) := by
  obtain ⟨fw, hfw, hcase⟩ := h
  rcases hcase with hempty | ⟨e, hlast, hstored⟩
  · simp [reconcileOneFileWatch, hfw, hempty]
  · simp [reconcileOneFileWatch, hfw, hlast, hstored]

theorem reconcileOneFileWatch_ok_fields (c : Cluster) (m : Monitor)
    (w : String) (b : Bool) (m' : Monitor)
    (h : reconcileOneFileWatch c m w = .ok (b, m')) :
    m'.hasChangesToSync = m.hasChangesToSync ∧ m'.spec = m.spec := by
  cases hfw : c.fileWatches w with
  | transportError => simp [reconcileOneFileWatch, hfw] at h
  | notFound =>
    have hcall : reconcileOneFileWatch c m w = .ok (false, m) := by
      simp [reconcileOneFileWatch, hfw]
    have heq := hcall.symm.trans h
    injection heq with h1
    injection h1 with hb hm
    subst hm
    exact ⟨rfl, rfl⟩
  | found fw =>
    cases hlast : fw.status.fileEvents.getLast? with
    | none =>
      have hcall : reconcileOneFileWatch c m w = .ok (false, m) := by
        simp [reconcileOneFileWatch, hfw, hlast]
      have heq := hcall.symm.trans h
      injection heq with h1
      injection h1 with hb hm
      subst hm
      exact ⟨rfl, rfl⟩
    | some newLast =>
      by_cases hc : lookupAssoc m.lastFileEvents w = some newLast
      · have hcall : reconcileOneFileWatch c m w = .ok (false, m) := by
          simp [reconcileOneFileWatch, hfw, hlast, hc]
        have heq := hcall.symm.trans h
        injection heq with h1
        injection h1 with hb hm
        subst hm
        exact ⟨rfl, rfl⟩
      · have hcall : reconcileOneFileWatch c m w = .ok (true, { m with
            lastFileEvents := insertAssoc m.lastFileEvents w newLast
            modTimeByPath :=
              consumeFileEvents m.modTimeByPath fw.status.fileEvents }) := by
          simp [reconcileOneFileWatch, hfw, hlast, hc]
        have heq := hcall.symm.trans h
        injection heq with h1
        injection h1 with hb hm
        subst hm
        exact ⟨rfl, rfl⟩

theorem reconcileOneFileWatch_true_idem (c : Cluster) (m m' : Monitor)
    (w : String) (h : reconcileOneFileWatch c m w = .ok (true, m')) :
    reconcileOneFileWatch c m' w = .ok (false, m') := by
  cases hfw : c.fileWatches w with
  | transportError => simp [reconcileOneFileWatch, hfw] at h
  | notFound => simp [reconcileOneFileWatch, hfw] at h
  | found fw =>
    cases hlast : fw.status.fileEvents.getLast? with
    | none => simp [reconcileOneFileWatch, hfw, hlast] at h
    | some newLast =>
      by_cases hc : lookupAssoc m.lastFileEvents w = some newLast
      · simp [reconcileOneFileWatch, hfw, hlast, hc] at h
      · have hcall : reconcileOneFileWatch c m w = .ok (true, { m with
            lastFileEvents := insertAssoc m.lastFileEvents w newLast
            modTimeByPath :=
              consumeFileEvents m.modTimeByPath fw.status.fileEvents }) := by
          simp [reconcileOneFileWatch, hfw, hlast, hc]
        have heq := hcall.symm.trans h
        injection heq with h1
        have hm' : ({ m with
            lastFileEvents := insertAssoc m.lastFileEvents w newLast
            modTimeByPath :=
              consumeFileEvents m.modTimeByPath fw.status.fileEvents } : Monitor)
            = m' := congrArg Prod.snd h1
        subst hm'
        simp [reconcileOneFileWatch, hfw, hlast, lookupAssoc_insertAssoc_self]

theorem reconcileFileWatchList_noNew (c : Cluster) (m : Monitor)
    (ws : List String) (h : ∀ w ∈ ws, noNewData c m w) :
    reconcileFileWatchList c m false ws = .ok (false, m) := by
  induction ws with
  | nil => rfl
  | cons w rest ih =>
    have h1 : reconcileOneFileWatch c m w = .ok (false, m) :=
      reconcileOneFileWatch_of_noNewData c m w (h w (by simp))
    simp only [reconcileFileWatchList, h1, Bool.or_false]
    exact ih (fun w' hw' => h w' (by simp [hw']))

/-- C8: if on a reconciliation pass each configured file-watch either has
an empty event list or a most recent event structurally equal to the one
stored in `lastFileEvents`, then file-watch delta detection returns
`false` and the monitor — in particular `modTimeByPath` — is left
completely unchanged. -/
theorem c8_fileWatch_reobservation_idempotent (c : Cluster) (m : Monitor)
    (h : ∀ w ∈ m.spec.fileWatchNames, noNewData c m w) :
    reconcileFileWatches c m = .ok (false, m) := by
  unfold reconcileFileWatches
  by_cases he : m.spec.fileWatchNames.isEmpty
  · simp [he]
  · simp only [he, if_neg, Bool.false_eq_true, not_false_eq_true]
    exact reconcileFileWatchList_noNew c m _ h

theorem c8_witness :
    reconcileFileWatches clusterEmptyEvents (freshMonitor specOneWatch)
      = .ok (false, freshMonitor specOneWatch) :=
  c8_fileWatch_reobservation_idempotent clusterEmptyEvents
    (freshMonitor specOneWatch)
    (fun _ _ => ⟨_, rfl, Or.inl rfl⟩)

/-- C7: for a path observed at two times t1 < t2, in either order of
arrival, within one event list or across two successive consumptions, the
merged modification time equals max(t1, t2); and when a watch has a new
last event, non-newest events of the fetched list are folded into the
merge as well. -/
theorem c7_modTime_monotone_merge (p : String) (t1 t2 : Nat) (hlt : t1 < t2)
    (e1 e2 : FileEvent) (h1t : e1.time = t1) (h2t : e2.time = t2)
    (h1p : p ∈ e1.seenFiles) (h2p : p ∈ e2.seenFiles) :
    lookupAssoc (consumeFileEvents [] [e1, e2]) p = some (max t1 t2)
    ∧ lookupAssoc (consumeFileEvents [] [e2, e1]) p = some (max t1 t2)
    ∧ lookupAssoc (consumeFileEvents (consumeFileEvents [] [e1]) [e2]) p
        = some (max t1 t2)
    ∧ lookupAssoc (consumeFileEvents (consumeFileEvents [] [e2]) [e1]) p
        = some (max t1 t2)
    ∧ (∀ (c : Cluster) (m : Monitor) (w : String) (fw : FileWatch)
        (e3 : FileEvent),
        c.fileWatches w = .found fw →
        fw.status.fileEvents = [e1, e3] →
        lookupAssoc m.lastFileEvents w ≠ some e3 →
        p ∉ e3.seenFiles → m.modTimeByPath = [] →
        ∃ m', reconcileOneFileWatch c m w = .ok (true, m')
          ∧ lookupAssoc m'.modTimeByPath p = some t1) := by
  have hle : ¬ t2 < t1 := Nat.lt_asymm hlt
  have h12 : lookupAssoc (foldEventIntoPaths (foldEventIntoPaths [] e1) e2) p
      = some t2 := by
    rw [lookupAssoc_foldEventIntoPaths, if_pos h2p,
      lookupAssoc_foldEventIntoPaths, if_pos h1p]
    simp [lookupAssoc, mergeTime, h1t, h2t, hlt]
  have h21 : lookupAssoc (foldEventIntoPaths (foldEventIntoPaths [] e2) e1) p
      = some t2 := by
    rw [lookupAssoc_foldEventIntoPaths, if_pos h1p,
      lookupAssoc_foldEventIntoPaths, if_pos h2p]
    simp [lookupAssoc, mergeTime, h1t, h2t, hle]
  have hmax : max t1 t2 = t2 := Nat.max_eq_right (Nat.le_of_lt hlt)
  refine ⟨?_, ?_, ?_, ?_, ?_⟩
  · show lookupAssoc (foldEventIntoPaths (foldEventIntoPaths [] e1) e2) p
      = some (max t1 t2)
    rw [hmax]; exact h12
  · show lookupAssoc (foldEventIntoPaths (foldEventIntoPaths [] e2) e1) p
      = some (max t1 t2)
    rw [hmax]; exact h21
  · show lookupAssoc (foldEventIntoPaths (foldEventIntoPaths [] e1) e2) p
      = some (max t1 t2)
    rw [hmax]; exact h12
  · show lookupAssoc (foldEventIntoPaths (foldEventIntoPaths [] e2) e1) p
      = some (max t1 t2)
    rw [hmax]; exact h21
  · intro c m w fw e3 hfw hevents hnot hp3 hempty
    have hlast : fw.status.fileEvents.getLast? = some e3 := by
      rw [hevents]; rfl
    refine ⟨{ m with
        lastFileEvents := insertAssoc m.lastFileEvents w e3
        modTimeByPath :=
          consumeFileEvents m.modTimeByPath fw.status.fileEvents },
      by simp [reconcileOneFileWatch, hfw, hlast, hnot], ?_⟩
    show lookupAssoc (consumeFileEvents m.modTimeByPath fw.status.fileEvents) p
      = some t1
    rw [hevents, hempty]
    show lookupAssoc (foldEventIntoPaths (foldEventIntoPaths [] e1) e3) p
      = some t1
    rw [lookupAssoc_foldEventIntoPaths, if_neg hp3,
      lookupAssoc_foldEventIntoPaths, if_pos h1p]
    simp [lookupAssoc, mergeTime, h1t]

theorem c7_witness :
    lookupAssoc (consumeFileEvents [] [eventT1, eventT2]) "/a" = some 2 := by
  have h := (c7_modTime_monotone_merge "/a" 1 2 (by decide) eventT1 eventT2
    rfl rfl (by decide) (by decide)).1
  simpa using h

/-- C6: `ensureMonitorExists` returns the stored monitor unchanged
exactly when one exists under the name with a structurally equal spec;
otherwise it stores and returns a fresh monitor with empty
`modTimeByPath`, `lastFileEvents` and `containers` maps, so a
previously-seen file-watch event is treated as new again. -/
theorem c6_ensureMonitor_resets (monitors : List (String × Monitor))
    (name : String) (spec : LiveUpdateSpec) :
    (∀ m, lookupAssoc monitors name = some m → m.spec = spec →
      ensureMonitorExists monitors name spec = (m, monitors))
    ∧ (∀ m, lookupAssoc monitors name = some m → m.spec ≠ spec →
      ensureMonitorExists monitors name spec =
        (freshMonitor spec, insertAssoc monitors name (freshMonitor spec)))
    ∧ (lookupAssoc monitors name = none →
      ensureMonitorExists monitors name spec =
        (freshMonitor spec, insertAssoc monitors name (freshMonitor spec)))
    ∧ (freshMonitor spec).lastFileEvents = []
    ∧ (freshMonitor spec).modTimeByPath = []
    ∧ (freshMonitor spec).containers = []
    ∧ (∀ (c : Cluster) (w : String) (fw : FileWatch) (e : FileEvent),
        c.fileWatches w = .found fw →
        fw.status.fileEvents.getLast? = some e →
        ∃ m', reconcileOneFileWatch c (freshMonitor spec) w = .ok (true, m')) := by
  refine ⟨?_, ?_, ?_, rfl, rfl, rfl, ?_⟩
  · intro m hm hspec
    simp [ensureMonitorExists, hm, hspec]
  · intro m hm hspec
    simp [ensureMonitorExists, hm, hspec]
  · intro hm
    simp [ensureMonitorExists, hm]
  · intro c w fw e hfw hlast
    exact ⟨{ freshMonitor spec with
        lastFileEvents := insertAssoc (freshMonitor spec).lastFileEvents w e
        modTimeByPath :=
          consumeFileEvents (freshMonitor spec).modTimeByPath
            fw.status.fileEvents },
      by simp [reconcileOneFileWatch, hfw, hlast, freshMonitor, lookupAssoc]⟩

theorem c6_witness :
    ensureMonitorExists monitorsOne "lu" specOneWatch
      = (freshMonitor specOneWatch, monitorsOne) :=
  (c6_ensureMonitor_resets monitorsOne "lu" specOneWatch).1
    (freshMonitor specOneWatch) rfl rfl

/-- C10: when the second of two configured file-watches fails with a
transport error after the first was consumed with new information, the
pass aborts with an error, the monitor keeps the mutations already made
for the first watch, `hasChangesToSync` keeps its prior value, and a
retried pass reports the first watch as having no new information. -/
theorem c10_partial_mutation_retained (c : Cluster) (m m1 : Monitor)
    (w1 w2 : String)
    (hnames : m.spec.fileWatchNames = [w1, w2])
    (h1 : reconcileOneFileWatch c m w1 = .ok (true, m1))
    (hw2 : c.fileWatches w2 = .transportError) :
    reconcileFileWatches c m = .error m1
    ∧ reconcileActive c m = .error m1
    ∧ m1.hasChangesToSync = m.hasChangesToSync
    ∧ reconcileOneFileWatch c m1 w1 = .ok (false, m1) := by
  have hw2' : reconcileOneFileWatch c m1 w2 = .error m1 := by
    simp [reconcileOneFileWatch, hw2]
  have hfws : reconcileFileWatches c m = .error m1 := by
    unfold reconcileFileWatches
    rw [hnames]
    simp only [List.isEmpty_cons, if_neg, Bool.false_eq_true,
      not_false_eq_true]
    simp [reconcileFileWatchList, h1, hw2']
  refine ⟨hfws, ?_, (reconcileOneFileWatch_ok_fields c m w1 true m1 h1).1,
    reconcileOneFileWatch_true_idem c m m1 w1 h1⟩
  unfold reconcileActive
  rw [hfws]

theorem c10_witness :
    reconcileFileWatches clusterOneGoodWatch (freshMonitor specTwoWatches)
      = .error monitorTwoWatchesAfter
    ∧ reconcileActive clusterOneGoodWatch (freshMonitor specTwoWatches)
      = .error monitorTwoWatchesAfter
    ∧ monitorTwoWatchesAfter.hasChangesToSync
      = (freshMonitor specTwoWatches).hasChangesToSync
    ∧ reconcileOneFileWatch clusterOneGoodWatch monitorTwoWatchesAfter "fw-1"
      = .ok (false, monitorTwoWatchesAfter) :=
  c10_partial_mutation_retained clusterOneGoodWatch
    (freshMonitor specTwoWatches) monitorTwoWatchesAfter "fw-1" "fw-2"
    rfl rfl rfl

theorem kubeApplyStep_char (c : Cluster) (m : Monitor)
    (sel : KubernetesSelector) (kaOpt : Option KubernetesApplyStatus)
    (h : sel.applyName = "" ∧ kaOpt = none ∨
      sel.applyName ≠ "" ∧ ∃ st, kaOpt = some st ∧
        c.kubernetesApplies sel.applyName = .found st) :
    ∃ b, kubeApplyStep c m sel = .proceed kaOpt b ∧
      (b = true ↔ kaOpt ≠ none ∧ m.lastKubernetesApplyStatus ≠ kaOpt) := by
  rcases h with ⟨he, hnone⟩ | ⟨hne, st, hk, hfound⟩
  · subst hnone
    exact ⟨false, by simp [kubeApplyStep, he], by simp⟩
  · subst hk
    refine ⟨(match m.lastKubernetesApplyStatus with
      | none => true
      | some prev => if prev = st then false else true), ?_, ?_⟩
    · simp [kubeApplyStep, hne, hfound]
    · cases hprev : m.lastKubernetesApplyStatus with
      | none => simp [hprev]
      | some prev => by_cases hp : prev = st <;> simp [hprev, hp]

theorem kubeDiscoveryStep_char (c : Cluster) (m : Monitor)
    (sel : KubernetesSelector) (kdOpt : Option KubernetesDiscovery)
    (h : sel.discoveryName = "" ∧ kdOpt = none ∨
      sel.discoveryName ≠ "" ∧ ∃ kd, kdOpt = some kd ∧
        c.kubernetesDiscoveries sel.discoveryName = .found kd) :
    ∃ b, kubeDiscoveryStep c m sel = .proceed kdOpt b ∧
      (b = true ↔ ∃ kd, kdOpt = some kd ∧
        ∀ prev, m.lastKubernetesDiscovery = some prev →
          prev.status ≠ kd.status) := by
  rcases h with ⟨he, hnone⟩ | ⟨hne, kd, hk, hfound⟩
  · subst hnone
    exact ⟨false, by simp [kubeDiscoveryStep, he], by simp⟩
  · subst hk
    refine ⟨(match m.lastKubernetesDiscovery with
      | none => true
      | some prev => if prev.status = kd.status then false else true), ?_, ?_⟩
    · simp [kubeDiscoveryStep, hne, hfound]
    · cases hprev : m.lastKubernetesDiscovery with
      | none => simp [hprev]
      | some prev => by_cases hp : prev.status = kd.status <;> simp [hprev, hp]

theorem kubeImageStep_char (c : Cluster) (m : Monitor)
    (sel : KubernetesSelector) (imOpt : Option ImageMapStatus)
    (h : sel.imageMapName = "" ∧ imOpt = none ∨
      sel.imageMapName ≠ "" ∧ ∃ st, imOpt = some st ∧
        c.imageMaps sel.imageMapName = .found st) :
    ∃ b, kubeImageStep c m sel = .proceed imOpt b ∧
      (b = true ↔ imOpt ≠ none ∧ m.lastImageMapStatus ≠ imOpt) := by
  rcases h with ⟨he, hnone⟩ | ⟨hne, st, hk, hfound⟩
  · subst hnone
    exact ⟨false, by simp [kubeImageStep, he], by simp⟩
  · subst hk
    refine ⟨(match m.lastImageMapStatus with
      | none => true
      | some prev => if prev = st then false else true), ?_, ?_⟩
    · simp [kubeImageStep, hne, hfound]
    · cases hprev : m.lastImageMapStatus with
      | none => simp [hprev]
      | some prev => by_cases hp : prev = st <;> simp [hprev, hp]

/-- C3 (amended): not-found on a configured kubernetes dependency makes
the whole detection return `false` with no error and no snapshot
update — aborting the remaining blocks — even if an earlier-checked kind
changed; only when every configured dependency is found are the three
snapshots overwritten unconditionally and `true` returned iff at least
one configured kind changed against its baseline (an empty baseline
counting as a change). -/
theorem c3_kubernetes_detection :
    (∀ (c : Cluster) (m : Monitor), m.spec.selector.kubernetes = none →
      reconcileKubernetesResource c m = .ok (false, m))
    ∧ (∀ (c : Cluster) (m : Monitor) (sel : KubernetesSelector),
        m.spec.selector.kubernetes = some sel →
        sel.applyName ≠ "" →
        c.kubernetesApplies sel.applyName = .notFound →
        reconcileKubernetesResource c m = .ok (false, m))
    ∧ (∀ (c : Cluster) (m : Monitor) (sel : KubernetesSelector),
        m.spec.selector.kubernetes = some sel →
        (sel.applyName = "" ∨
          ∃ st, c.kubernetesApplies sel.applyName = .found st) →
        sel.discoveryName ≠ "" →
        c.kubernetesDiscoveries sel.discoveryName = .notFound →
        reconcileKubernetesResource c m = .ok (false, m))
    ∧ (∀ (c : Cluster) (m : Monitor) (sel : KubernetesSelector),
        m.spec.selector.kubernetes = some sel →
        (sel.applyName = "" ∨
          ∃ st, c.kubernetesApplies sel.applyName = .found st) →
        (sel.discoveryName = "" ∨
          ∃ kd, c.kubernetesDiscoveries sel.discoveryName = .found kd) →
        sel.imageMapName ≠ "" →
        c.imageMaps sel.imageMapName = .notFound →
        reconcileKubernetesResource c m = .ok (false, m))
    ∧ (∀ (c : Cluster) (m : Monitor) (sel : KubernetesSelector)
        (kaOpt : Option KubernetesApplyStatus)
        (kdOpt : Option KubernetesDiscovery)
        (imOpt : Option ImageMapStatus),
        m.spec.selector.kubernetes = some sel →
        (sel.applyName = "" ∧ kaOpt = none ∨
          sel.applyName ≠ "" ∧ ∃ st, kaOpt = some st ∧
            c.kubernetesApplies sel.applyName = .found st) →
        (sel.discoveryName = "" ∧ kdOpt = none ∨
          sel.discoveryName ≠ "" ∧ ∃ kd, kdOpt = some kd ∧
            c.kubernetesDiscoveries sel.discoveryName = .found kd) →
        (sel.imageMapName = "" ∧ imOpt = none ∨
          sel.imageMapName ≠ "" ∧ ∃ st, imOpt = some st ∧
            c.imageMaps sel.imageMapName = .found st) →
        ∃ changed, reconcileKubernetesResource c m =
            .ok (changed, { m with
              lastKubernetesApplyStatus := kaOpt
              lastKubernetesDiscovery := kdOpt
              lastImageMapStatus := imOpt })
          ∧ (changed = true ↔
              (kaOpt ≠ none ∧ m.lastKubernetesApplyStatus ≠ kaOpt)
              ∨ (∃ kd, kdOpt = some kd ∧
                  ∀ prev, m.lastKubernetesDiscovery = some prev →
                    prev.status ≠ kd.status)
              ∨ (imOpt ≠ none ∧ m.lastImageMapStatus ≠ imOpt))) := by
  refine ⟨?_, ?_, ?_, ?_, ?_⟩
  · intro c m hsel
    simp [reconcileKubernetesResource, hsel]
  · intro c m sel hsel hne hnf
    have hstep : kubeApplyStep c m sel = .earlyExit := by
      simp [kubeApplyStep, hne, hnf]
    simp [reconcileKubernetesResource, hsel, hstep]
  · intro c m sel hsel hap hne hnf
    have hstepD : kubeDiscoveryStep c m sel = .earlyExit := by
      simp [kubeDiscoveryStep, hne, hnf]
    have hA : ∃ ka b, kubeApplyStep c m sel = .proceed ka b := by
      rcases hap with he | ⟨st, hfound⟩
      · exact ⟨none, false, by simp [kubeApplyStep, he]⟩
      · by_cases he : sel.applyName = ""
        · exact ⟨none, false, by simp [kubeApplyStep, he]⟩
        · obtain ⟨b, hb, -⟩ := kubeApplyStep_char c m sel (some st)
            (Or.inr ⟨he, st, rfl, hfound⟩)
          exact ⟨some st, b, hb⟩
    obtain ⟨ka, b1, hstepA⟩ := hA
    simp [reconcileKubernetesResource, hsel, hstepA, hstepD]
  · intro c m sel hsel hap had hne hnf
    have hstepI : kubeImageStep c m sel = .earlyExit := by
      simp [kubeImageStep, hne, hnf]
    have hA : ∃ ka b, kubeApplyStep c m sel = .proceed ka b := by
      rcases hap with he | ⟨st, hfound⟩
      · exact ⟨none, false, by simp [kubeApplyStep, he]⟩
      · by_cases he : sel.applyName = ""
        · exact ⟨none, false, by simp [kubeApplyStep, he]⟩
        · obtain ⟨b, hb, -⟩ := kubeApplyStep_char c m sel (some st)
            (Or.inr ⟨he, st, rfl, hfound⟩)
          exact ⟨some st, b, hb⟩
    have hD : ∃ kd b, kubeDiscoveryStep c m sel = .proceed kd b := by
      rcases had with he | ⟨kd, hfound⟩
      · exact ⟨none, false, by simp [kubeDiscoveryStep, he]⟩
      · by_cases he : sel.discoveryName = ""
        · exact ⟨none, false, by simp [kubeDiscoveryStep, he]⟩
        · obtain ⟨b, hb, -⟩ := kubeDiscoveryStep_char c m sel (some kd)
            (Or.inr ⟨he, kd, rfl, hfound⟩)
          exact ⟨some kd, b, hb⟩
    obtain ⟨ka, b1, hstepA⟩ := hA
    obtain ⟨kd, b2, hstepD⟩ := hD
    simp [reconcileKubernetesResource, hsel, hstepA, hstepD, hstepI]
  · intro c m sel kaOpt kdOpt imOpt hsel hka hkd him
    obtain ⟨b1, hstepA, hb1⟩ := kubeApplyStep_char c m sel kaOpt hka
    obtain ⟨b2, hstepD, hb2⟩ := kubeDiscoveryStep_char c m sel kdOpt hkd
    obtain ⟨b3, hstepI, hb3⟩ := kubeImageStep_char c m sel imOpt him
    refine ⟨b1 || b2 || b3, ?_, ?_⟩
    · simp [reconcileKubernetesResource, hsel, hstepA, hstepD, hstepI]
    · rw [← hb1, ← hb2, ← hb3]
      simp [Bool.or_eq_true, or_assoc]

/-- C3 counterexample: with apply and discovery configured, the apply
object present (a real status has appeared against an empty baseline,
i.e. a configured kind changed) but the discovery object not yet
created, `reconcileKubernetesResource` returns `false` and leaves the
apply snapshot untouched — contradicting the claim that the snapshot is
updated unconditionally and that `true` is returned iff a configured
kind changed. -/
theorem c3_counterexample :
    reconcileKubernetesResource clusterApplyFoundDiscoveryMissing
      (freshMonitor specSelApplyDiscovery)
      = .ok (false, freshMonitor specSelApplyDiscovery)
    ∧ clusterApplyFoundDiscoveryMissing.kubernetesApplies
        selApplyDiscovery.applyName = .found applyStatusX
    ∧ (freshMonitor specSelApplyDiscovery).lastKubernetesApplyStatus = none :=
  ⟨rfl, rfl, rfl⟩

theorem c3_witness :
    ∃ changed, reconcileKubernetesResource clusterAllFound
        (freshMonitor specSelAllThree) =
        .ok (changed, { freshMonitor specSelAllThree with
          lastKubernetesApplyStatus := some applyStatusX
          lastKubernetesDiscovery := some discoveryX
          lastImageMapStatus := some imageStatusX })
      ∧ (changed = true ↔
          (some applyStatusX ≠ none ∧
            (freshMonitor specSelAllThree).lastKubernetesApplyStatus
              ≠ some applyStatusX)
          ∨ (∃ kd, some discoveryX = some kd ∧
              ∀ prev,
                (freshMonitor specSelAllThree).lastKubernetesDiscovery
                  = some prev → prev.status ≠ kd.status)
          ∨ (some imageStatusX ≠ none ∧
              (freshMonitor specSelAllThree).lastImageMapStatus
                ≠ some imageStatusX)) :=
  c3_kubernetes_detection.2.2.2.2 clusterAllFound
    (freshMonitor specSelAllThree) selAllThree
    (some applyStatusX) (some discoveryX) (some imageStatusX) rfl
    (Or.inr ⟨by decide, applyStatusX, rfl, rfl⟩)
    (Or.inr ⟨by decide, discoveryX, rfl, rfl⟩)
    (Or.inr ⟨by decide, imageStatusX, rfl, rfl⟩)

theorem applyLoop_failed_reason (env : SyncEnv) (input : Input) :
    ∀ (l : List Container) (les : Option LiveUpdateContainerStatus)
      (acc : List LiveUpdateContainerStatus) (trace : List Container)
      (f : LiveUpdateStateFailed),
    ((applyLoop env input les acc trace l).1).failed = some f →
    f.reason = "UpdateFailed" ∨ f.reason = "PodsInconsistent" := by
  intro l
  induction l with
  | nil => intro les acc trace f h; simp [applyLoop] at h
  | cons cInfo rest ih =>
    intro les acc trace f h
    cases hu : env.updateContainer cInfo with
    | runStepFailure msg =>
      simp only [applyLoop, hu] at h
      exact ih _ _ _ f h
    | otherError msg =>
      simp only [applyLoop, hu] at h
      injection h with h1
      rw [← h1]
      exact Or.inl rfl
    | success =>
      cases les with
      | some lastErr =>
        simp only [applyLoop, hu] at h
        injection h with h1
        rw [← h1]
        exact Or.inr rfl
      | none =>
        simp only [applyLoop, hu] at h
        exact ih _ _ _ f h

theorem applyLoop_failed_containers_lt (env : SyncEnv) (input : Input) :
    ∀ (l : List Container) (les : Option LiveUpdateContainerStatus)
      (acc : List LiveUpdateContainerStatus) (trace : List Container)
      (f : LiveUpdateStateFailed),
    ((applyLoop env input les acc trace l).1).failed = some f →
    ((applyLoop env input les acc trace l).1).containers.length
      < acc.length + l.length := by
  intro l
  induction l with
  | nil => intro les acc trace f h; simp [applyLoop] at h
  | cons cInfo rest ih =>
    intro les acc trace f h
    cases hu : env.updateContainer cInfo with
    | runStepFailure msg =>
      simp only [applyLoop, hu] at h ⊢
      have := ih _ _ _ f h
      simp only [List.length_append, List.length_cons, List.length_nil]
        at this ⊢
      omega
    | otherError msg =>
      simp only [applyLoop, hu] at h ⊢
      simp only [List.length_cons]
      omega
    | success =>
      cases les with
      | some lastErr =>
        simp only [applyLoop, hu] at h ⊢
        simp only [List.length_cons]
        omega
      | none =>
        simp only [applyLoop, hu] at h ⊢
        have := ih _ _ _ f h
        simp only [List.length_append, List.length_cons, List.length_nil]
          at this ⊢
        omega

theorem applyLoop_allRunStepFailures (env : SyncEnv) (input : Input) :
    ∀ (l : List Container),
    (∀ c ∈ l, (updateErrorMessage (env.updateContainer c)).isSome) →
    ∀ (les : Option LiveUpdateContainerStatus)
      (acc : List LiveUpdateContainerStatus) (trace : List Container),
    applyLoop env input les acc trace l =
      ({ failed := none,
         containers := acc ++ l.map (failedEntry env input) }, trace ++ l) := by
  intro l
  induction l with
  | nil => intro _ les acc trace; simp [applyLoop]
  | cons cInfo rest ih =>
    intro h les acc trace
    have hc := h cInfo (by simp)
    cases hu : env.updateContainer cInfo with
    | success => rw [hu] at hc; simp [updateErrorMessage] at hc
    | otherError msg => rw [hu] at hc; simp [updateErrorMessage] at hc
    | runStepFailure msg =>
      have hentry : ({ containerStatusFor env input cInfo with
          lastExecError := msg } : LiveUpdateContainerStatus)
          = failedEntry env input cInfo := by
        simp [failedEntry, hu, updateErrorMessage]
      simp only [applyLoop, hu]
      rw [hentry, ih (fun c hc' => h c (by simp [hc']))]
      simp

theorem applyLoop_successList (env : SyncEnv) (input : Input) :
    ∀ (l : List Container), (∀ c ∈ l, env.updateContainer c = .success) →
    ∀ (acc : List LiveUpdateContainerStatus) (trace l2 : List Container),
    applyLoop env input none acc trace (l ++ l2) =
      applyLoop env input none
        (acc ++ l.map (containerStatusFor env input)) (trace ++ l) l2 := by
  intro l
  induction l with
  | nil => intro _ acc trace l2; simp
  | cons cInfo rest ih =>
    intro h acc trace l2
    have hu := h cInfo (by simp)
    simp only [List.cons_append, applyLoop, hu, List.append_eq]
    rw [ih (fun c hc' => h c (by simp [hc']))]
    simp

theorem applyLoop_runFailList (env : SyncEnv) (input : Input) :
    ∀ (l : List Container),
    (∀ c ∈ l, (updateErrorMessage (env.updateContainer c)).isSome) →
    ∀ (e0 : LiveUpdateContainerStatus)
      (acc : List LiveUpdateContainerStatus) (trace l2 : List Container),
    ∃ e', applyLoop env input (some e0) acc trace (l ++ l2) =
      applyLoop env input (some e')
        (acc ++ l.map (failedEntry env input)) (trace ++ l) l2 := by
  intro l
  induction l with
  | nil => intro _ e0 acc trace l2; exact ⟨e0, by simp⟩
  | cons cInfo rest ih =>
    intro h e0 acc trace l2
    have hc := h cInfo (by simp)
    cases hu : env.updateContainer cInfo with
    | success => rw [hu] at hc; simp [updateErrorMessage] at hc
    | otherError msg => rw [hu] at hc; simp [updateErrorMessage] at hc
    | runStepFailure msg =>
      have hentry : ({ containerStatusFor env input cInfo with
          lastExecError := msg } : LiveUpdateContainerStatus)
          = failedEntry env input cInfo := by
        simp [failedEntry, hu, updateErrorMessage]
      obtain ⟨e', he'⟩ := ih (fun c hc' => h c (by simp [hc']))
        (failedEntry env input cInfo)
        (acc ++ [failedEntry env input cInfo])
        (trace ++ [cInfo]) l2
      refine ⟨e', ?_⟩
      simp only [List.cons_append, applyLoop, hu, List.append_eq]
      rw [hentry, he']
      simp

/-- C4: a sync attempt that fails with reason `Invalid` never invokes the
container-mutation capability: the `UpdateContainer` invocation trace of
the attempt is empty. -/
theorem c4_invalid_no_container_contact (env : SyncEnv) (input : Input)
    (f : LiveUpdateStateFailed)
    (hf : ((applyInternal env input).1).failed = some f)
    (hreason : f.reason = "Invalid") :
    (applyInternal env input).2 = [] := by
  cases hb : env.boilRuns with
  | error e => simp [applyInternal, hb]
  | ok bs =>
    cases hp : env.missingLocalPaths with
    | error e => simp [applyInternal, hb, hp]
    | ok lp =>
      exfalso
      simp only [applyInternal, hb, hp] at hf
      rcases applyLoop_failed_reason env input input.containers none [] [] f hf
        with h | h
      · exact absurd (hreason.symm.trans h) (by decide)
      · exact absurd (hreason.symm.trans h) (by decide)

theorem c4_witness : (applyInternal envBoilFail inputOneContainer).2 = [] :=
  c4_invalid_no_container_contact envBoilFail inputOneContainer
    { reason := "Invalid", message := "Building exec: bad run step",
      lastTransitionTime := 0 }
    (by decide) rfl

/-- C5: when every container's update reports a run-step failure (none
succeeds, none hits an infrastructure error), the status lists exactly
one entry per container with its exec error recorded in `lastExecError`,
and the `failed` descriptor is `none`. -/
theorem c5_uniform_failure_not_fatal (env : SyncEnv) (input : Input)
    (hboil : ∃ bs, env.boilRuns = .ok bs)
    (hpaths : ∃ lp, env.missingLocalPaths = .ok lp)
    (h : ∀ c ∈ input.containers,
      (updateErrorMessage (env.updateContainer c)).isSome) :
    (applyInternal env input).1 =
      { failed := none,
        containers := input.containers.map (failedEntry env input) }
    ∧ ∀ c ∈ input.containers, ∃ msg,
        env.updateContainer c = .runStepFailure msg ∧
        (failedEntry env input c).lastExecError = msg := by
  obtain ⟨bs, hb⟩ := hboil
  obtain ⟨lp, hp⟩ := hpaths
  constructor
  · simp only [applyInternal, hb, hp]
    rw [applyLoop_allRunStepFailures env input input.containers h none [] []]
    simp
  · intro c hc
    have hm := h c hc
    cases hu : env.updateContainer c with
    | runStepFailure msg =>
      exact ⟨msg, rfl, by simp [failedEntry, hu, updateErrorMessage]⟩
    | success => rw [hu] at hm; simp [updateErrorMessage] at hm
    | otherError msg => rw [hu] at hm; simp [updateErrorMessage] at hm

theorem c5_witness :
    ((applyInternal envAllRunFail inputTwoContainers).1).failed = none
    ∧ ((applyInternal envAllRunFail inputTwoContainers).1).containers
      = inputTwoContainers.containers.map
          (failedEntry envAllRunFail inputTwoContainers) := by
  have h := (c5_uniform_failure_not_fatal envAllRunFail inputTwoContainers
    ⟨[], rfl⟩ ⟨([], []), rfl⟩ (fun c _ => rfl)).1
  exact ⟨by rw [h], by rw [h]⟩

theorem applyLoop_podsInconsistent_inv (env : SyncEnv) (input : Input) :
    ∀ (l : List Container) (les : Option LiveUpdateContainerStatus)
      (acc : List LiveUpdateContainerStatus) (trace : List Container)
      (f : LiveUpdateStateFailed),
    ((applyLoop env input les acc trace l).1).failed = some f →
    f.reason = "PodsInconsistent" →
    ∃ l1 cs l2, l = l1 ++ cs :: l2
      ∧ env.updateContainer cs = .success
      ∧ (les ≠ none ∨ ∃ cf ∈ l1,
          (updateErrorMessage (env.updateContainer cf)).isSome) := by
  intro l
  induction l with
  | nil => intro les acc trace f h hr; simp [applyLoop] at h
  | cons c rest ih =>
    intro les acc trace f h hr
    cases hu : env.updateContainer c with
    | runStepFailure msg =>
      simp only [applyLoop, hu] at h
      obtain ⟨l1, cs, l2, hsplit, hsucc, -⟩ := ih _ _ _ f h hr
      refine ⟨c :: l1, cs, l2, by rw [hsplit]; rfl, hsucc,
        Or.inr ⟨c, by simp, by simp [hu, updateErrorMessage]⟩⟩
    | otherError msg =>
      simp only [applyLoop, hu] at h
      injection h with h1
      have hfr : f.reason = "UpdateFailed" := by rw [← h1]
      exact absurd (hfr.symm.trans hr) (by decide)
    | success =>
      cases les with
      | some lastErr =>
        refine ⟨[], c, rest, rfl, hu, Or.inl (by simp)⟩
      | none =>
        simp only [applyLoop, hu] at h
        obtain ⟨l1, cs, l2, hsplit, hsucc, hdisj⟩ := ih _ _ _ f h hr
        rcases hdisj with hne | ⟨cf, hmem, hfail⟩
        · exact absurd rfl hne
        · exact ⟨c :: l1, cs, l2, by rw [hsplit]; rfl, hsucc,
            Or.inr ⟨cf, by simp [hmem], hfail⟩⟩

/-- C1 (amended): `PodsInconsistent` is produced exactly when a clean
success comes after an earlier recorded run-step failure of the same
batch.  (i) With the batch `pre ++ cf :: mid ++ cs :: rest` where every
container of `pre` succeeds, `cf` and every container of `mid` report
run-step failures, and `cs` succeeds, the attempt's failure reason is
`PodsInconsistent`.  (ii) Conversely — the necessity direction — a
`PodsInconsistent` outcome implies the batch splits as
`l1 ++ cs :: l2` with `cs` a clean success and some earlier container of
`l1` reporting a run-step failure.  (iii) In particular, a two-container
batch where the first container succeeds and the second then reports a
run-step failure yields both per-container statuses, the second carrying
its exec error, and no fatal failure at all. -/
theorem c1_podsInconsistent_iff_failure_then_success :
    (∀ (env : SyncEnv) (input : Input) (pre mid rest : List Container)
      (cf cs : Container),
      input.containers = pre ++ cf :: (mid ++ cs :: rest) →
      (∃ bs, env.boilRuns = .ok bs) →
      (∃ lp, env.missingLocalPaths = .ok lp) →
      (∀ c ∈ pre, env.updateContainer c = .success) →
      (updateErrorMessage (env.updateContainer cf)).isSome →
      (∀ c ∈ mid, (updateErrorMessage (env.updateContainer c)).isSome) →
      env.updateContainer cs = .success →
      ∃ f, ((applyInternal env input).1).failed = some f
        ∧ f.reason = "PodsInconsistent")
    ∧ (∀ (env : SyncEnv) (input : Input) (f : LiveUpdateStateFailed),
      ((applyInternal env input).1).failed = some f →
      f.reason = "PodsInconsistent" →
      ∃ l1 cs l2, input.containers = l1 ++ cs :: l2
        ∧ env.updateContainer cs = .success
        ∧ ∃ cf ∈ l1, (updateErrorMessage (env.updateContainer cf)).isSome)
    ∧ (∀ (env : SyncEnv) (input : Input) (cA cB : Container) (msg : String),
      input.containers = [cA, cB] →
      (∃ bs, env.boilRuns = .ok bs) →
      (∃ lp, env.missingLocalPaths = .ok lp) →
      env.updateContainer cA = .success →
      env.updateContainer cB = .runStepFailure msg →
      (applyInternal env input).1 =
        { failed := none,
          containers := [containerStatusFor env input cA,
            { containerStatusFor env input cB with
              lastExecError := msg }] }) := by
  refine ⟨?_, ?_, ?_⟩
  · intro env input pre mid rest cf cs hcont hboil hpaths hpre hcf hmid hcs
    obtain ⟨bs, hb⟩ := hboil
    obtain ⟨lp, hp⟩ := hpaths
    simp only [applyInternal, hb, hp, hcont]
    rw [applyLoop_successList env input pre hpre [] [] _]
    cases hu : env.updateContainer cf with
    | success => rw [hu] at hcf; simp [updateErrorMessage] at hcf
    | otherError msg => rw [hu] at hcf; simp [updateErrorMessage] at hcf
    | runStepFailure msg =>
      simp only [applyLoop, hu]
      obtain ⟨e', he'⟩ := applyLoop_runFailList env input mid hmid
        ({ containerStatusFor env input cf with lastExecError := msg })
        (([] ++ pre.map (containerStatusFor env input))
          ++ [{ containerStatusFor env input cf with lastExecError := msg }])
        (([] ++ pre) ++ [cf]) (cs :: rest)
      rw [he']
      simp only [applyLoop, hcs]
      exact ⟨_, rfl, rfl⟩
  · intro env input f hf hr
    cases hb : env.boilRuns with
    | error e =>
      simp only [applyInternal, hb] at hf
      injection hf with h1
      have hfr : f.reason = "Invalid" := by rw [← h1]
      exact absurd (hfr.symm.trans hr) (by decide)
    | ok bs =>
      cases hp : env.missingLocalPaths with
      | error e =>
        simp only [applyInternal, hb, hp] at hf
        injection hf with h1
        have hfr : f.reason = "Invalid" := by rw [← h1]
        exact absurd (hfr.symm.trans hr) (by decide)
      | ok lp =>
        simp only [applyInternal, hb, hp] at hf
        obtain ⟨l1, cs, l2, hsplit, hsucc, hdisj⟩ :=
          applyLoop_podsInconsistent_inv env input input.containers
            none [] [] f hf hr
        rcases hdisj with hne | hex
        · exact absurd rfl hne
        · exact ⟨l1, cs, l2, hsplit, hsucc, hex⟩
  · intro env input cA cB msg hcont hboil hpaths hA hB
    obtain ⟨bs, hb⟩ := hboil
    obtain ⟨lp, hp⟩ := hpaths
    simp only [applyInternal, hb, hp, hcont, applyLoop, hA, hB]
    simp

/-- C1 counterexample: a two-container batch where `containerA` succeeds
first and `containerB` then reports a run-step failure does not yield
`PodsInconsistent` — the attempt ends with no failure descriptor at all
(the inconsistency check only fires when a success comes after a
failure). -/
theorem c1_counterexample :
    ((applyInternal envSuccessThenRunFail inputTwoContainers).1).failed = none
    ∧ ¬ ∃ f,
      ((applyInternal envSuccessThenRunFail inputTwoContainers).1).failed
        = some f ∧ f.reason = "PodsInconsistent" := by
  have hnone : ((applyInternal envSuccessThenRunFail inputTwoContainers).1).failed
      = none := by decide
  refine ⟨hnone, ?_⟩
  intro h
  obtain ⟨f, hf, -⟩ := h
  rw [hnone] at hf
  exact Option.noConfusion hf

theorem c1_witness :
    (∃ f, ((applyInternal envRunFailThenSuccess inputTwoContainers).1).failed
      = some f ∧ f.reason = "PodsInconsistent")
    ∧ (applyInternal envSuccessThenRunFail inputTwoContainers).1 =
      { failed := none,
        containers := [containerStatusFor envSuccessThenRunFail
            inputTwoContainers containerA,
          { containerStatusFor envSuccessThenRunFail inputTwoContainers
              containerB with
            lastExecError := "run step exited with code 1" }] } :=
  ⟨c1_podsInconsistent_iff_failure_then_success.1 envRunFailThenSuccess
      inputTwoContainers [] [] [] containerA containerB rfl
      ⟨[], rfl⟩ ⟨([], []), rfl⟩ (by simp) rfl (by simp) (by decide),
    c1_podsInconsistent_iff_failure_then_success.2.2 envSuccessThenRunFail
      inputTwoContainers containerA containerB "run step exited with code 1"
      rfl ⟨[], rfl⟩ ⟨([], []), rfl⟩ (by decide) (by decide)⟩

/-- C2 (amended): a failure with reason `Invalid` always comes with an
empty `containers` list; a mid-batch abort (`UpdateFailed` or
`PodsInconsistent`) leaves in `containers` only the entries recorded
before the aborting container, so the list is strictly shorter than the
batch — but it need not be empty, so failure descriptor and per-container
list are not mutually exclusive in general. -/
theorem c2_failed_containers (env : SyncEnv) (input : Input) :
    (∀ f, ((applyInternal env input).1).failed = some f →
      f.reason = "Invalid" → ((applyInternal env input).1).containers = [])
    ∧ (∀ f, ((applyInternal env input).1).failed = some f →
      f.reason ≠ "Invalid" →
      ((applyInternal env input).1).containers.length
        < input.containers.length) := by
  constructor
  · intro f hf hr
    cases hb : env.boilRuns with
    | error e => simp [applyInternal, hb]
    | ok bs =>
      cases hp : env.missingLocalPaths with
      | error e => simp [applyInternal, hb, hp]
      | ok lp =>
        exfalso
        simp only [applyInternal, hb, hp] at hf
        rcases applyLoop_failed_reason env input input.containers none [] [] f hf
          with h | h
        · exact absurd (hr.symm.trans h) (by decide)
        · exact absurd (hr.symm.trans h) (by decide)
  · intro f hf hr
    cases hb : env.boilRuns with
    | error e =>
      exfalso
      simp only [applyInternal, hb] at hf
      injection hf with h1
      exact hr (by rw [← h1])
    | ok bs =>
      cases hp : env.missingLocalPaths with
      | error e =>
        exfalso
        simp only [applyInternal, hb, hp] at hf
        injection hf with h1
        exact hr (by rw [← h1])
      | ok lp =>
        simp only [applyInternal, hb, hp] at hf ⊢
        have := applyLoop_failed_containers_lt env input input.containers
          none [] [] f hf
        simpa using this

/-- C2 counterexample: with `containerA` succeeding and `containerB`
hitting an infrastructure error, the computed status has a non-nil
failure descriptor and a non-empty per-container list (containerA's
entry), refuting mutual exclusivity. -/
theorem c2_counterexample :
    ((applyInternal envInfraFail inputTwoContainers).1).failed.isSome = true
    ∧ ((applyInternal envInfraFail inputTwoContainers).1).containers ≠ [] := by
  exact ⟨by decide, by decide⟩

theorem c2_witness :
    ((applyInternal envInfraFail inputTwoContainers).1).containers.length
      < inputTwoContainers.containers.length :=
  (c2_failed_containers envInfraFail inputTwoContainers).2
    { reason := "UpdateFailed",
      message := "Updating pod pod-b: tar copy failed",
      lastTransitionTime := 0 }
    (by decide) (by decide)

/-- C9: when the computed status carries a failure, the stored transition
time is preserved if the previously stored status failed with the same
reason; a different reason or no previous failure stamps the current
time. -/
theorem c9_transition_time (env : SyncEnv) (obj : LiveUpdateObj)
    (input : Input) (monitorOpt : Option Monitor)
    (f : LiveUpdateStateFailed)
    (hf : ((applyUpdate env obj input monitorOpt).1).failed = some f) :
    (∃ prev, obj.status.failed = some prev ∧ prev.reason = f.reason
      ∧ f.lastTransitionTime = prev.lastTransitionTime)
    ∨ ((∀ prev, obj.status.failed = some prev → prev.reason ≠ f.reason)
      ∧ f.lastTransitionTime = env.now) := by
  have hfu : (applyTransition obj.status ((applyInternal env input).1)
      env.now).failed = some f := hf
  cases h0 : ((applyInternal env input).1).failed with
  | none =>
    simp only [applyTransition, h0] at hfu
    exact Option.noConfusion hfu
  | some f0 =>
    simp only [applyTransition, h0] at hfu
    injection hfu with h1
    cases hprev : obj.status.failed with
    | none =>
      right
      constructor
      · intro prev hp
        exact Option.noConfusion hp
      · rw [← h1]
        simp [hprev]
    | some prev =>
      by_cases hr : prev.reason = f0.reason
      · left
        refine ⟨prev, rfl, ?_, ?_⟩
        · rw [← h1]
          exact hr
        · rw [← h1]
          simp [hprev, hr]
      · right
        constructor
        · intro prev' hp'
          injection hp' with hpe
          rw [← hpe, ← h1]
          exact hr
        · rw [← h1]
          simp [hprev, hr]

theorem c9_witness :
    (∃ prev, objStoredInvalid.status.failed = some prev
      ∧ prev.reason = invalidFreshFailure.reason
      ∧ invalidFreshFailure.lastTransitionTime = prev.lastTransitionTime)
    ∨ ((∀ prev, objStoredInvalid.status.failed = some prev →
        prev.reason ≠ invalidFreshFailure.reason)
      ∧ invalidFreshFailure.lastTransitionTime = envBoilFail.now) :=
  c9_transition_time envBoilFail objStoredInvalid inputOneContainer none
    invalidFreshFailure (by decide)

end LiveUpdateModel
